import Mathlib

/-!
Shallow embedding of the Takgol SSE chat backend (src/server.js together
with the token-auth variant in src/unnamed/part_000): the SSE connection
registry with its broadcast fan-out and keep-alive tick, the REST message
handlers over the relational `messages` table, the retention sweeps, and
the HMAC auth-token check, with proofs of the behavioural properties
stated for them.
-/

namespace Takgol

/-! ## SSE connection registry and broadcast (server.js lines 72-78) -/

/-- One SSE subscriber connection as held in the global `clients` array of
server.js.  The transport handle `res` is abstracted to a `failing` flag
(`res.write` throws exactly when the underlying socket is broken) plus the
list of frames successfully written so far; `cid` stands for the object
identity of `res`.  The frame type `α` abstracts the serialised SSE frame
(`data: ${JSON.stringify(obj)}\n\n`); serialisation is injective, so
frames are carried as their pre-images. -/
structure Conn (α : Type) where
  cid : Nat
  failing : Bool
  received : List α

deriving instance DecidableEq for Conn

deriving instance Repr for Conn

variable {α : Type}

/-- The per-connection write body of `broadcast` (server.js line 76):
`try { res.write(payload); } catch (e) { /* ignore */ }`.  A failing
transport throws, which the catch swallows leaving the connection exactly
as it was; a healthy transport appends the frame to the stream. -/
def writeTo (payload : α) (c : Conn α) : Conn α :=
  if c.failing then c else { c with received := c.received ++ [payload] }

/-- server.js lines 72-78: `broadcast(obj)` serialises `obj` once and then
runs `clients.forEach`, attempting exactly one write per registered
connection; each per-connection failure is caught locally, and the
registry itself is not modified by the loop.  The function is total: it
never raises to its caller. -/
def broadcast (payload : α) (clients : List (Conn α)) : List (Conn α) :=
  clients.map (writeTo payload)

/-! ## Subscribe / Unsubscribe (server.js lines 166-171)

`GET /events` pushes the fresh `res` object onto `clients`
(`clients.push(res)`), and the close notification removes it by object
identity (`clients = clients.filter(c => c !== res)`).  Connection ids
stand for object identities. -/

/-- One registry operation: `Subscribe` is the `clients.push(res)` of the
`GET /events` handler, `Unsubscribe` is the
`clients = clients.filter(c => c !== res)` of its close callback. -/
inductive HubOp where
  | subscribe (i : Nat)
  | unsubscribe (i : Nat)

deriving instance DecidableEq for HubOp

/-- Effect of one registry operation on the `clients` array, keyed by
connection identity. -/
def applyOp (reg : List Nat) : HubOp → List Nat
  | .subscribe i => reg ++ [i]
  | .unsubscribe i => reg.filter (fun x => x ≠ i)

/-- Folds a sequence of Subscribe/Unsubscribe operations over the
registry, as the event handlers run one at a time on the event loop. -/
def runOps (reg : List Nat) : List HubOp → List Nat
  | [] => reg
  | op :: rest => runOps (applyOp reg op) rest

/-- Number of Subscribe operations in a sequence. -/
def countSubs : List HubOp → Nat
  | [] => 0
  | .subscribe _ :: r => countSubs r + 1
  | .unsubscribe _ :: r => countSubs r

/-- Number of Unsubscribe operations that actually applied, i.e. whose
target was present in the registry when they ran. -/
def countApplied : List Nat → List HubOp → Nat
  | _, [] => 0
  | reg, .subscribe i :: r => countApplied (reg ++ [i]) r
  | reg, .unsubscribe i :: r =>
      (if i ∈ reg then 1 else 0) + countApplied (reg.filter (fun x => x ≠ i)) r

/-- An operation sequence is fresh when every Subscribe brings a
connection identity not currently registered; this is guaranteed in the
source because each `GET /events` request allocates a brand-new `res`
object, and identities are compared with `!==`. -/
def freshRun : List Nat → List HubOp → Bool
  | _, [] => true
  | reg, .subscribe i :: r => !(decide (i ∈ reg)) && freshRun (reg ++ [i]) r
  | reg, .unsubscribe i :: r => freshRun (reg.filter (fun x => x ≠ i)) r

theorem applyOp_unsubscribe_absent (reg : List Nat) (i : Nat) (h : i ∉ reg) :
    applyOp reg (.unsubscribe i) = reg := by
  simp only [applyOp]
  exact List.filter_eq_self.2 (fun x hx => by
    simp only [ne_eq, decide_eq_true_eq]
    exact fun hxi => h (hxi ▸ hx))

theorem length_filter_ne_of_nodup (reg : List Nat) (i : Nat)
    (hnd : reg.Nodup) (hmem : i ∈ reg) :
    (reg.filter (fun x => x ≠ i)).length + 1 = reg.length := by
  induction reg with
  | nil => cases hmem
  | cons a t ih =>
      by_cases hai : a = i
      · subst hai
        have hna : a ∉ t := (List.nodup_cons.1 hnd).1
        simp [List.filter_cons]
        exact fun x hx hxa => hna (hxa ▸ hx)
      · have hmem2 : i ∈ t := by
          rcases List.mem_cons.1 hmem with h | h
          · exact absurd h.symm hai
          · exact h
        have hrec := ih (List.nodup_cons.1 hnd).2 hmem2
        simp [List.filter_cons, hai] at hrec ⊢
        omega

theorem nodup_applyOp (reg : List Nat) (op : HubOp) (hnd : reg.Nodup)
    (hfresh : ∀ i, op = .subscribe i → i ∉ reg) :
    (applyOp reg op).Nodup := by
  cases op with
  | subscribe i =>
      simpa [applyOp, List.nodup_append] using ⟨hnd, hfresh i rfl⟩
  | unsubscribe i => exact List.Nodup.filter _ hnd

/-- Core registry-size invariant, by induction over the operation
sequence: final size plus applied unsubscriptions equals initial size
plus subscriptions. -/
theorem runOps_length (ops : List HubOp) :
    ∀ reg : List Nat, reg.Nodup → freshRun reg ops = true →
      (runOps reg ops).length + countApplied reg ops =
        reg.length + countSubs ops := by
  induction ops with
  | nil => intro reg _ _; simp [runOps, countApplied, countSubs]
  | cons op rest ih =>
      intro reg hnd hfresh
      cases op with
      | subscribe i =>
          have hfr : freshRun (reg ++ [i]) rest = true := by
            simp only [freshRun, Bool.and_eq_true] at hfresh
            exact hfresh.2
          have hni : i ∉ reg := by
            simp only [freshRun, Bool.and_eq_true, Bool.not_eq_true',
              decide_eq_false_iff_not] at hfresh
            exact hfresh.1
          have hnd2 : (reg ++ [i]).Nodup := by
            simpa [List.nodup_append] using ⟨hnd, hni⟩
          have := ih (reg ++ [i]) hnd2 hfr
          simp only [runOps, applyOp, countApplied, countSubs]
          simp only [List.length_append, List.length_cons,
            List.length_nil] at this ⊢
          omega
      | unsubscribe i =>
          have hfr : freshRun (reg.filter (fun x => x ≠ i)) rest = true :=
            hfresh
          have hnd2 : (reg.filter (fun x => x ≠ i)).Nodup :=
            List.Nodup.filter _ hnd
          have hrec := ih _ hnd2 hfr
          by_cases hmem : i ∈ reg
          · have hlen := length_filter_ne_of_nodup reg i hnd hmem
            simp only [runOps, applyOp, countApplied, countSubs, hmem,
              if_pos]
            omega
          · have heq : reg.filter (fun x => x ≠ i) = reg :=
              applyOp_unsubscribe_absent reg i hmem
            simp only [runOps, applyOp, countApplied, countSubs,
              if_neg hmem, heq] at hrec ⊢
            omega

/-! ## Claim C1: Publish fan-out -/

/-- C1 (amended): `broadcast` to N registered connections attempts exactly
one write per connection (the result is the elementwise image of
`writeTo`, so its length is N and no connection is removed by the call);
each failing connection is left in the registry completely unchanged —
it is NOT removed — and each non-failing connection receives the
serialised event.  `broadcast` is a total function: per-connection
failures are caught by the inner try/catch and never reach the caller. -/
theorem claim_c1_publish (p : α) (cl : List (Conn α)) (c : Conn α)
    (hc : c ∈ cl) :
    (broadcast p cl).length = cl.length ∧
    (c.failing = true → c ∈ broadcast p cl ∧ writeTo p c = c) ∧
    (c.failing = false →
      { c with received := c.received ++ [p] } ∈ broadcast p cl) := by
  refine ⟨List.length_map _ _, fun hf => ?_, fun hf => ?_⟩
  · have hw : writeTo p c = c := by simp [writeTo, hf]
    exact ⟨hw ▸ List.mem_map_of_mem (writeTo p) hc, hw⟩
  · have hw : writeTo p c = { c with received := c.received ++ [p] } := by
      simp [writeTo, hf]
    exact hw ▸ List.mem_map_of_mem (writeTo p) hc

/-- Witness for C1 at a concrete registry of one healthy and one broken
connection. -/
theorem claim_c1_publish_witness :
    ((⟨2, true, []⟩ : Conn String) ∈
        [(⟨1, false, []⟩ : Conn String), ⟨2, true, []⟩]) ∧
    ((broadcast "e" [(⟨1, false, []⟩ : Conn String), ⟨2, true, []⟩]).length =
        [(⟨1, false, []⟩ : Conn String), ⟨2, true, []⟩].length ∧
      ((⟨2, true, []⟩ : Conn String).failing = true →
        (⟨2, true, []⟩ : Conn String) ∈
            broadcast "e" [(⟨1, false, []⟩ : Conn String), ⟨2, true, []⟩] ∧
          writeTo "e" (⟨2, true, []⟩ : Conn String) = ⟨2, true, []⟩) ∧
      ((⟨2, true, []⟩ : Conn String).failing = false →
        ({ (⟨2, true, []⟩ : Conn String) with
            received := (⟨2, true, []⟩ : Conn String).received ++ ["e"] }) ∈
          broadcast "e" [(⟨1, false, []⟩ : Conn String), ⟨2, true, []⟩])) :=
  ⟨by decide, claim_c1_publish "e" _ _ (by decide)⟩

/-- C1 counterexample to the claim as stated: with N = 1 connection whose
write fails (K = 1), the claim predicts that K = 1 connections are removed
from the registry, i.e. that the registry is left with N − K = 0 entries.
In the code the catch block ignores the failure and `broadcast` never
touches `clients`, so the broken connection is still registered. -/
theorem claim_c1_counterexample :
    broadcast "e" [(⟨1, true, []⟩ : Conn String)] = [⟨1, true, []⟩] ∧
    ¬((broadcast "e" [(⟨1, true, []⟩ : Conn String)]).length = 0) := by
  decide

/-! ## Claim C7: Subscribe/Unsubscribe registry size -/

/-- C7: over any fresh operation sequence starting from the empty
registry, the registry size is exactly the number of Subscribes minus the
number of Unsubscribes that actually applied, and Unsubscribe of an
absent connection identity is a no-op on the registry. -/
theorem claim_c7_registry_size (ops : List HubOp) (reg : List Nat) (i : Nat)
    (hfresh : freshRun [] ops = true) (hni : i ∉ reg) :
    (runOps [] ops).length = countSubs ops - countApplied [] ops ∧
    applyOp reg (.unsubscribe i) = reg := by
  refine ⟨?_, applyOp_unsubscribe_absent reg i hni⟩
  have := runOps_length ops [] List.nodup_nil hfresh
  simp only [List.length_nil] at this
  omega

/-- Witness for C7 on a concrete sequence with one applied and one
redundant Unsubscribe. -/
theorem claim_c7_registry_size_witness :
    (freshRun []
        [HubOp.subscribe 0, HubOp.subscribe 1, HubOp.unsubscribe 0,
          HubOp.unsubscribe 0] = true) ∧
    ((7 : Nat) ∉ [5]) ∧
    ((runOps []
        [HubOp.subscribe 0, HubOp.subscribe 1, HubOp.unsubscribe 0,
          HubOp.unsubscribe 0]).length =
      countSubs
          [HubOp.subscribe 0, HubOp.subscribe 1, HubOp.unsubscribe 0,
            HubOp.unsubscribe 0] -
        countApplied []
          [HubOp.subscribe 0, HubOp.subscribe 1, HubOp.unsubscribe 0,
            HubOp.unsubscribe 0] ∧
      applyOp [5] (.unsubscribe 7) = [5]) :=
  ⟨by decide, by decide,
    claim_c7_registry_size _ [5] 7 (by decide) (by decide)⟩

/-! ## part_000 SSE clients: keep-alive tick and reaping

src/unnamed/part_000 keeps richer client records
`{ res, id, lastActive }` (lines 77-110), refreshes `lastActive` on every
successful write (lines 113-124 and 458-464), and reaps dead or idle
clients in `cleanupDeadClients` every five minutes (lines 90-110). -/

/-- One SSE client of src/unnamed/part_000: `failing` abstracts a broken
transport (`res.write` throws), `finished` is `res.finished`, `lastActive`
the activity timestamp, `received` the frames written so far. -/
structure SSEClient where
  cid : Nat
  failing : Bool
  finished : Bool
  lastActive : Int
  received : List String

deriving instance DecidableEq for SSEClient

/-- Per-client write body shared by `broadcastEvent` (lines 116-122) and
the keep-alive tick (line 462):
`try { c.res.write(payload); c.lastActive = Date.now(); } catch {}`.
When the write throws, the catch swallows it before `lastActive` is
refreshed, leaving the client record untouched. -/
def writeFrame (now : Int) (payload : String) (c : SSEClient) : SSEClient :=
  if c.failing then c
  else { c with received := c.received ++ [payload], lastActive := now }

/-- part_000 lines 113-124: `broadcastEvent(obj)` frames the serialised
event as `data: ${JSON.stringify(obj)}\n\n` and runs the shared write body
over every client. -/
def broadcastEvent (now : Int) (ev : String) (cl : List SSEClient) :
    List SSEClient :=
  cl.map (writeFrame now ("data: " ++ ev ++ "\n\n"))

/-- part_000 lines 458-464: the keep-alive interval returns early on an
empty registry and otherwise writes the comment frame `:\n\n` to every
client with the shared write body. -/
def sseKeepAlive (now : Int) (cl : List SSEClient) : List SSEClient :=
  if cl.length = 0 then cl else cl.map (writeFrame now ":\n\n")

/-- The 30-minute idle bound of `cleanupDeadClients` (line 98), in
milliseconds. -/
def MAX_IDLE_MS : Int := 30 * 60 * 1000

/-- part_000 lines 90-108: `cleanupDeadClients` keeps exactly the clients
whose response is not finished and whose `lastActive` is within the idle
bound. -/
def cleanupDeadClients (now : Int) (cl : List SSEClient) : List SSEClient :=
  cl.filter (fun c =>
    !c.finished && !(decide (now - c.lastActive > MAX_IDLE_MS)))

/-! ## Claim C4: heartbeat tick -/

/-- C4: a non-empty keep-alive tick attempts the comment frame on every
registered client; a client whose write succeeds has its frame appended
and its `lastActive` refreshed to the tick time; a client whose write
fails is treated exactly as by a failed `broadcastEvent` write (the
identical shared write body leaves it untouched, so its `lastActive`
stays stale), which schedules it for removal: once its staleness exceeds
the idle bound, `cleanupDeadClients` drops it from the registry. -/
theorem claim_c4_heartbeat (now now2 : Int) (cl : List SSEClient)
    (c : SSEClient) (hc : c ∈ cl) :
    (cl ≠ [] → sseKeepAlive now cl = cl.map (writeFrame now ":\n\n")) ∧
    (c.failing = false → writeFrame now ":\n\n" c =
      { c with received := c.received ++ [":\n\n"], lastActive := now }) ∧
    (c.failing = true →
      (∀ p, writeFrame now p c = c) ∧
      (now2 - c.lastActive > MAX_IDLE_MS →
        c ∉ cleanupDeadClients now2 cl)) := by
  refine ⟨fun hne => ?_, fun hf => ?_, fun hf => ⟨fun p => ?_, fun hidle => ?_⟩⟩
  · simp [sseKeepAlive, List.length_eq_zero, hne]
  · simp [writeFrame, hf]
  · simp [writeFrame, hf]
  · intro hmem
    have := (List.mem_filter.1 hmem).2
    simp only [Bool.and_eq_true, Bool.not_eq_true', decide_eq_false_iff_not]
      at this
    exact this.2 hidle

/-- Witness for C4 at a concrete registry with a healthy and a broken
client, evaluated at a tick time and a later sweep time past the idle
bound. -/
theorem claim_c4_heartbeat_witness :
    ((⟨2, true, false, 0, []⟩ : SSEClient) ∈
        [(⟨1, false, false, 0, []⟩ : SSEClient), ⟨2, true, false, 0, []⟩]) ∧
    (([(⟨1, false, false, 0, []⟩ : SSEClient), ⟨2, true, false, 0, []⟩] ≠
          ([] : List SSEClient)) →
      sseKeepAlive 10
          [(⟨1, false, false, 0, []⟩ : SSEClient), ⟨2, true, false, 0, []⟩] =
        [(⟨1, false, false, 0, []⟩ : SSEClient),
            ⟨2, true, false, 0, []⟩].map (writeFrame 10 ":\n\n")) ∧
    ((⟨2, true, false, 0, []⟩ : SSEClient).failing = false →
      writeFrame 10 ":\n\n" (⟨2, true, false, 0, []⟩ : SSEClient) =
        { (⟨2, true, false, 0, []⟩ : SSEClient) with
            received :=
              (⟨2, true, false, 0, []⟩ : SSEClient).received ++ [":\n\n"],
            lastActive := 10 }) ∧
    ((⟨2, true, false, 0, []⟩ : SSEClient).failing = true →
      (∀ p, writeFrame 10 p (⟨2, true, false, 0, []⟩ : SSEClient) =
          ⟨2, true, false, 0, []⟩) ∧
      (2000000 - (⟨2, true, false, 0, []⟩ : SSEClient).lastActive >
          MAX_IDLE_MS →
        (⟨2, true, false, 0, []⟩ : SSEClient) ∉
          cleanupDeadClients 2000000
            [(⟨1, false, false, 0, []⟩ : SSEClient),
              ⟨2, true, false, 0, []⟩])) := by
  refine ⟨by decide, ?_⟩
  exact (claim_c4_heartbeat 10 2000000 _ _ (by decide)).imp id
    (fun h => h)

/-! ## Event-loop trace model for delivery ordering (claim C8)

The server is a single event-loop process: request handlers and close
notifications run one at a time, and each `broadcast` call writes to
every registered connection before the next handler runs (server.js
lines 72-78, 166-171, 207-227).  A trace is the serialised sequence of
registry operations and publishes; per-connection frame order is the
order of the `res.write` calls on that connection. -/

/-- One serialised event-loop step touching the hub. -/
inductive TraceOp where
  | connect (i : Nat) (failing : Bool)
  | disconnect (i : Nat)
  | publish (p : String)

deriving instance DecidableEq for TraceOp

/-- Effect of one trace step on the `clients` registry. -/
def stepTrace (cl : List (Conn String)) : TraceOp → List (Conn String)
  | .connect i f => cl ++ [⟨i, f, []⟩]
  | .disconnect i => cl.filter (fun c => c.cid ≠ i)
  | .publish p => broadcast p cl

/-- Runs a trace from a registry state. -/
def runTrace (cl : List (Conn String)) : List TraceOp → List (Conn String)
  | [] => cl
  | op :: rest => runTrace (stepTrace cl op) rest

/-- The serialised frames published over a trace, in publish order. -/
def pubs : List TraceOp → List String
  | [] => []
  | .publish p :: r => p :: pubs r
  | .connect _ _ :: r => pubs r
  | .disconnect _ :: r => pubs r

/-- Whether a trace contains no disconnect of the given connection. -/
def noDisconnect (i : Nat) : List TraceOp → Bool
  | [] => true
  | .disconnect j :: r => !(decide (j = i)) && noDisconnect i r
  | .connect _ _ :: r => noDisconnect i r
  | .publish _ :: r => noDisconnect i r

theorem runTrace_append (l1 l2 : List TraceOp) :
    ∀ cl, runTrace cl (l1 ++ l2) = runTrace (runTrace cl l1) l2 := by
  induction l1 with
  | nil => intro cl; rfl
  | cons op rest ih => intro cl; exact ih (stepTrace cl op)

/-- Every connection's received-frame list is a subsequence of the
publish sequence, possibly continuing frames it already held at the
start of the trace. -/
theorem received_sublist (ops : List TraceOp) :
    ∀ cl (c : Conn String), c ∈ runTrace cl ops →
      (∃ c0 ∈ cl, ∃ ext, c.received = c0.received ++ ext ∧
          ext.Sublist (pubs ops)) ∨
      c.received.Sublist (pubs ops) := by
  induction ops with
  | nil =>
      intro cl c hc
      exact Or.inl ⟨c, hc, [], by simp, List.nil_sublist _⟩
  | cons op rest ih =>
      intro cl c hc
      cases op with
      | connect i f =>
          rcases ih (cl ++ [⟨i, f, []⟩]) c hc with
            ⟨c0, hc0, ext, hext, hsub⟩ | hsub
          · rcases List.mem_append.1 hc0 with h | h
            · exact Or.inl ⟨c0, h, ext, hext, hsub⟩
            · have : c0 = ⟨i, f, []⟩ := by simpa using h
              subst this
              exact Or.inr (by simpa [pubs] using hext ▸ hsub)
          · exact Or.inr hsub
      | disconnect i =>
          rcases ih _ c hc with ⟨c0, hc0, ext, hext, hsub⟩ | hsub
          · exact Or.inl ⟨c0, List.mem_of_mem_filter hc0, ext, hext, hsub⟩
          · exact Or.inr hsub
      | publish p =>
          rcases ih (broadcast p cl) c hc with ⟨c0, hc0, ext, hext, hsub⟩ | hsub
          · have hc0m : c0 ∈ List.map (writeTo p) cl := by
              simpa [broadcast] using hc0
            rcases List.mem_map.1 hc0m with ⟨c1, hc1, hw⟩
            by_cases hf : c1.failing
            · have hc0c1 : c0 = c1 := by rw [← hw]; simp [writeTo, hf]
              rw [hc0c1] at hext
              exact Or.inl ⟨c1, hc1, ext, hext,
                hsub.trans (List.sublist_cons_self p (pubs rest))⟩
            · have hco : c0.received = c1.received ++ [p] := by
                rw [← hw]; simp [writeTo, hf]
              refine Or.inl ⟨c1, hc1, p :: ext, ?_, ?_⟩
              · rw [hext, hco]; simp
              · simpa [pubs] using
                  (List.cons_sublist_cons (a := p)).2 hsub
          · exact Or.inr (hsub.trans (List.sublist_cons_self p (pubs rest)))

/-- A connection never disconnected survives the rest of the trace with
its identity and failing flag intact, its stream only extended. -/
theorem conn_persists (ops : List TraceOp) :
    ∀ cl (c : Conn String), c ∈ cl → noDisconnect c.cid ops = true →
      ∃ ext, (⟨c.cid, c.failing, c.received ++ ext⟩ : Conn String) ∈
        runTrace cl ops := by
  induction ops with
  | nil =>
      intro cl c hc _
      exact ⟨[], by simpa using hc⟩
  | cons op rest ih =>
      intro cl c hc hnd
      cases op with
      | connect i f =>
          rcases ih (cl ++ [⟨i, f, []⟩]) c (List.mem_append_left _ hc)
              (by simpa [noDisconnect] using hnd) with ⟨ext, hm⟩
          exact ⟨ext, hm⟩
      | disconnect i =>
          have hne : ¬(i = c.cid) := by
            simp only [noDisconnect, Bool.and_eq_true, Bool.not_eq_true',
              decide_eq_false_iff_not] at hnd
            exact hnd.1
          have hmem : c ∈ cl.filter (fun d => d.cid ≠ i) := by
            refine List.mem_filter.2 ⟨hc, ?_⟩
            simp only [ne_eq, decide_eq_true_eq]
            exact fun h => hne h.symm
          rcases ih _ c hmem (by
            simp only [noDisconnect, Bool.and_eq_true] at hnd
            exact hnd.2) with ⟨ext, hm⟩
          exact ⟨ext, hm⟩
      | publish p =>
          have hmem : writeTo p c ∈ broadcast p cl :=
            List.mem_map_of_mem (writeTo p) hc
          by_cases hf : c.failing
          · have hw : writeTo p c = c := by simp [writeTo, hf]
            rcases ih (broadcast p cl) c (hw ▸ hmem)
                (by simpa [noDisconnect] using hnd) with ⟨ext, hm⟩
            exact ⟨ext, hm⟩
          · have hw : writeTo p c =
                (⟨c.cid, c.failing, c.received ++ [p]⟩ : Conn String) := by
              simp [writeTo, hf]
            rcases ih (broadcast p cl) _ (hw ▸ hmem)
                (by simpa [noDisconnect] using hnd) with ⟨ext, hm⟩
            exact ⟨[p] ++ ext, by simpa using hm⟩

theorem sublist_pair_cases {a b : α} {s : List α}
    (hsub : s.Sublist [a, b]) (ha : a ∈ s) (hb : b ∈ s) (hab : a ≠ b) :
    s = [a, b] := by
  match s, hsub with
  | [], _ => cases ha
  | [x], _ =>
      have hxa : a = x := by simpa using ha
      have hxb : b = x := by simpa using hb
      exact absurd (hxa.trans hxb.symm) hab
  | [x, y], h => exact h.eq_of_length rfl
  | x :: y :: z :: t, h =>
      have := h.length_le
      simp at this

/-- Order of two uniquely-published frames inside any subsequence of the
publish sequence. -/
theorem sublist_two_order {l m : List String} {a b : String}
    (hsub : l.Sublist m) (hab : a ≠ b)
    (hm : m.filter (fun x => x = a || x = b) = [a, b])
    (ha : a ∈ l) (hb : b ∈ l) :
    l.filter (fun x => x = a || x = b) = [a, b] := by
  have hfsub : (l.filter (fun x => x = a || x = b)).Sublist
      (m.filter (fun x => x = a || x = b)) := hsub.filter _
  rw [hm] at hfsub
  refine sublist_pair_cases hfsub ?_ ?_ hab
  · exact List.mem_filter.2 ⟨ha, by simp⟩
  · exact List.mem_filter.2 ⟨hb, by simp⟩

/-! ## Claim C8: per-message-id delivery order -/

/-- C8: fix two frames pC (the create) and pE (the edit), with pE
published strictly after pC — expressed by the publish sequence of the
whole trace containing pC once and pE once, in that order.  Any
non-failing subscriber registered before the publish of pC and never
disconnected afterwards is delivered pC, and every subscriber that ends
up with both frames holds them in publish order: the subsequence of its
stream restricted to the two frames is `[pC, pE]`. -/
theorem claim_c8_delivery_order (pre rest : List TraceOp)
    (pC pE : String) (c : Conn String)
    (hc : c ∈ runTrace [] pre) (hfail : c.failing = false)
    (hnd : noDisconnect c.cid (TraceOp.publish pC :: rest) = true)
    (hne : pC ≠ pE)
    (hpubs : (pubs (pre ++ TraceOp.publish pC :: rest)).filter
        (fun x => x = pC || x = pE) = [pC, pE]) :
    ∃ d ∈ runTrace [] (pre ++ TraceOp.publish pC :: rest),
      d.cid = c.cid ∧ pC ∈ d.received ∧
      (pE ∈ d.received →
        d.received.filter (fun x => x = pC || x = pE) = [pC, pE]) := by
  have hrun : runTrace [] (pre ++ TraceOp.publish pC :: rest) =
      runTrace (runTrace [] pre) (TraceOp.publish pC :: rest) :=
    runTrace_append pre _ []
  rcases conn_persists (TraceOp.publish pC :: rest) (runTrace [] pre) c hc
      hnd with ⟨ext, hm⟩
  simp only [runTrace, stepTrace] at hm
  have hmem : writeTo pC c ∈ broadcast pC (runTrace [] pre) :=
    List.mem_map_of_mem (writeTo pC) hc
  have hw : writeTo pC c =
      (⟨c.cid, c.failing, c.received ++ [pC]⟩ : Conn String) := by
    simp [writeTo, hfail]
  rcases conn_persists rest (broadcast pC (runTrace [] pre)) _ (hw ▸ hmem)
      (by simpa [noDisconnect] using hnd) with ⟨ext2, hm2⟩
  refine ⟨⟨c.cid, c.failing, (c.received ++ [pC]) ++ ext2⟩, ?_, rfl, ?_, ?_⟩
  · rw [hrun]
    simpa [runTrace, stepTrace] using hm2
  · simp
  · intro hpe
    have hd : (⟨c.cid, c.failing, (c.received ++ [pC]) ++ ext2⟩ :
        Conn String) ∈ runTrace [] (pre ++ TraceOp.publish pC :: rest) := by
      rw [hrun]; simpa [runTrace, stepTrace] using hm2
    rcases received_sublist _ [] _ hd with ⟨c0, hc0, _⟩ | hsub
    · cases hc0
    · exact sublist_two_order hsub hne hpubs (by simp) hpe

/-- Witness for C8 on a concrete three-step trace: one subscriber, then a
create frame, then an edit frame. -/
theorem claim_c8_delivery_order_witness :
    ((⟨1, false, []⟩ : Conn String) ∈
        runTrace [] [TraceOp.connect 1 false]) ∧
    ((⟨1, false, []⟩ : Conn String).failing = false) ∧
    (noDisconnect 1 [TraceOp.publish "c", TraceOp.publish "e"] = true) ∧
    ("c" ≠ "e") ∧
    ((pubs ([TraceOp.connect 1 false] ++
        TraceOp.publish "c" :: [TraceOp.publish "e"])).filter
          (fun x => x = "c" || x = "e") = ["c", "e"]) ∧
    (∃ d ∈ runTrace []
        ([TraceOp.connect 1 false] ++
          TraceOp.publish "c" :: [TraceOp.publish "e"]),
      d.cid = (⟨1, false, []⟩ : Conn String).cid ∧ "c" ∈ d.received ∧
      ("e" ∈ d.received →
        d.received.filter (fun x => x = "c" || x = "e") = ["c", "e"])) :=
  ⟨by decide, by decide, by decide, by decide, by decide,
    claim_c8_delivery_order [TraceOp.connect 1 false] [TraceOp.publish "e"]
      "c" "e" ⟨1, false, []⟩ (by decide) (by decide) (by decide)
      (by decide) (by decide)⟩

/-! ## The durable store and the REST handlers (server.js lines 38-69,
134-163, 174-247)

One row of the `messages` table per record; the database is a list of
rows in insertion order.  A `pool.query` that the store rejects is
modelled by a failure flag on the handler (the rejection is caught by the
handler's try/catch); timestamps are integers in milliseconds, with
`now()` supplied as a parameter. -/

/-- One row of the `messages` table (schema at server.js lines 41-55). -/
structure MsgRec where
  id : String
  text : String
  sender : String
  phone : Option String
  group : Option String
  reply : Option String
  edited : Bool
  created_at : Int
  ip : Option String
  user_agent : Option String
  deleted : Bool
  deleted_at : Option Int
  deleted_by : Option String

deriving instance DecidableEq for MsgRec

deriving instance Repr for MsgRec

/-- One row of the `audit_logs` table (schema at server.js lines 58-65);
`meta` is dropped as opaque JSON. -/
structure AuditRec where
  id : String
  message_id : String
  action : String
  actor : String

deriving instance DecidableEq for AuditRec

/-- A broadcast event as handed to `broadcast` by the handlers:
`{type:"message",payload:msg}` (line 197), `{type:"edit",payload:updated}`
(line 221), `{type:"delete",id}` (line 241).  The create/edit payload is
carried as the underlying row; JSON serialisation is injective and
abstracted. -/
inductive Event where
  | message (m : MsgRec)
  | edit (m : MsgRec)
  | delete (id : String)

deriving instance DecidableEq for Event

/-- The whole observable server state: the two tables, the SSE registry,
and the serialised sequence of `broadcast` invocations made so far (the
publish history, one entry per `broadcast(...)` call site reached). -/
structure ChatState where
  db : List MsgRec
  audit : List AuditRec
  clients : List (Conn Event)
  history : List Event

deriving instance DecidableEq for ChatState

/-- Effect of one `broadcast(obj)` call (server.js lines 72-78) on the
server state: fan-out to every registered connection and one entry in
the publish history. -/
def doBroadcast (ev : Event) (st : ChatState) : ChatState :=
  { st with clients := broadcast ev st.clients,
            history := st.history ++ [ev] }

/-- The HTTP response of a handler, by status: `200 {ok:true,id}`,
`400 empty text`, `404 not found`, `500 server error`. -/
inductive Resp where
  | ok (id : String)
  | badRequest
  | notFound
  | serverError

deriving instance DecidableEq for Resp

/-- ASCII whitespace as trimmed by JavaScript `String.prototype.trim`
(restricted to the ASCII fragment actually exercised by the handlers). -/
def isWs (c : Char) : Bool :=
  c = ' ' || c = '\t' || c = '\n' || c = '\r'

/-- Drops leading whitespace characters. -/
def dropWs : List Char → List Char
  | [] => []
  | c :: r => if isWs c then dropWs r else c :: r

/-- Model of JavaScript `String(x).trim()` as used by the handlers on the
request text (server.js lines 176 and 210): strip whitespace from both
ends. -/
def jsTrim (s : String) : String :=
  String.mk ((dropWs (dropWs s.data).reverse).reverse)

/-- The row built and inserted by `POST /send` (server.js lines 186-187,
with the column defaults of the schema); `text` is the already-trimmed
body text and the default sender name applies when none was sent. -/
def mkMessageRow (now : Int) (newId : String) (text : String)
    (sender phone group reply ip ua : Option String) : MsgRec :=
  { id := newId, text := text, sender := sender.getD "کاربر",
    phone := phone, group := group, reply := reply, edited := false,
    created_at := now, ip := ip, user_agent := ua, deleted := false,
    deleted_at := none, deleted_by := none }

/-- server.js lines 174-204, `POST /send`.  Validation first (`empty
text` → 400); then the INSERT (its rejection — `insertFails` — is caught
by the outer try/catch → 500 with nothing else done); then the audit
INSERT in its own try/catch whose failure (`auditFails`) is swallowed;
then `broadcast({type:"message",payload:msg})`; then `200 {ok:true,id}`. -/
def postSend (insertFails auditFails : Bool) (now : Int)
    (newId auditId : String) (text : String)
    (sender phone group reply ip ua : Option String)
    (st : ChatState) : Resp × ChatState :=
  let text := jsTrim text
  if text = "" then (.badRequest, st)
  else if insertFails then (.serverError, st)
  else
    let senderV := sender.getD "کاربر"
    let rec0 := mkMessageRow now newId text sender phone group reply ip ua
    let st1 := { st with db := st.db ++ [rec0] }
    let st2 :=
      if auditFails then st1
      else { st1 with audit := st1.audit ++ [⟨auditId, newId, "create", senderV⟩] }
    let st3 := doBroadcast (.message rec0) st2
    (.ok newId, st3)

/-- server.js lines 207-227, `PUT /messages/:id`.  Validation (`empty
text` → 400); then `UPDATE messages SET text=$2, edited=true WHERE
id=$1 RETURNING ...` — note: no `deleted` condition, the row is matched
by id alone; `rowCount = 0` → 404; otherwise audit INSERT (failure
swallowed), `broadcast({type:"edit",payload:updated})` with the first
returned row, then 200. -/
def putMessage (updateFails auditFails : Bool) (auditId : String)
    (id newText editor : String) (st : ChatState) : Resp × ChatState :=
  let newText := jsTrim newText
  if newText = "" then (.badRequest, st)
  else if updateFails then (.serverError, st)
  else
    let db2 := st.db.map (fun m =>
      if m.id = id then { m with text := newText, edited := true } else m)
    match st.db.filter (fun m => decide (m.id = id)) with
    | [] => (.notFound, { st with db := db2 })
    | m0 :: _ =>
        let updated := { m0 with text := newText, edited := true }
        let st1 := { st with db := db2 }
        let st2 :=
          if auditFails then st1
          else { st1 with audit := st1.audit ++ [⟨auditId, id, "edit", editor⟩] }
        let st3 := doBroadcast (.edit updated) st2
        (.ok id, st3)

/-- server.js lines 230-247, `DELETE /messages/:id` (soft delete).
`UPDATE messages SET deleted=true, deleted_at=now(), deleted_by=$2 WHERE
id=$1 RETURNING id` — again no `deleted=false` condition; `rowCount = 0`
→ 404; otherwise audit INSERT (failure swallowed),
`broadcast({type:"delete",id})`, then 200. -/
def deleteMessage (updateFails auditFails : Bool) (auditId : String)
    (now : Int) (id actor : String) (st : ChatState) : Resp × ChatState :=
  if updateFails then (.serverError, st)
  else
    let db2 := st.db.map (fun m =>
      if m.id = id then
        { m with deleted := true, deleted_at := some now,
                 deleted_by := some actor }
      else m)
    match st.db.filter (fun m => decide (m.id = id)) with
    | [] => (.notFound, { st with db := db2 })
    | _ :: _ =>
        let st1 := { st with db := db2 }
        let st2 :=
          if auditFails then st1
          else { st1 with audit := st1.audit ++ [⟨auditId, id, "delete", actor⟩] }
        let st3 := doBroadcast (.delete id) st2
        (.ok id, st3)

/-- Milliseconds per day (`DAY_MS`, server.js line 259); the SQL
intervals `($1 || ' days')::interval` are day counts on the same clock. -/
def dayMs : Int := 24 * 60 * 60 * 1000

/-- server.js lines 250-258, `cleanupOldMessages`:
`DELETE FROM messages WHERE deleted = true AND created_at < now() -
($1 || ' days')::interval` — rows are kept unless soft-deleted AND
created before the retention cutoff. -/
def cleanupOldMessages (now retentionDays : Int) (db : List MsgRec) :
    List MsgRec :=
  db.filter (fun m =>
    !(m.deleted && decide (m.created_at < now - retentionDays * dayMs)))

/-- src/unnamed/part_000 lines 437-452, the two-query sweep: first
`DELETE ... WHERE deleted = false AND created_at < now() - ($1 || '
days')::interval`, then `DELETE ... WHERE deleted = true AND deleted_at <
now() - ('60 days')::interval` (a NULL `deleted_at` compares as unknown,
so such rows are kept). -/
def cleanupOldMessagesTok (now retentionDays : Int) (db : List MsgRec) :
    List MsgRec :=
  let db1 := db.filter (fun m =>
    !(!m.deleted && decide (m.created_at < now - retentionDays * dayMs)))
  db1.filter (fun m =>
    !(m.deleted &&
      (match m.deleted_at with
       | some d => decide (d < now - 60 * dayMs)
       | none => false)))

/-- The `ORDER BY created_at ASC` comparison of the SELECT in
`GET /messages`. -/
def byCreated (a b : MsgRec) : Prop := a.created_at ≤ b.created_at

instance : DecidableRel byCreated :=
  fun a b => inferInstanceAs (Decidable (a.created_at ≤ b.created_at))

instance : IsTotal MsgRec byCreated := ⟨fun a b => le_total _ _⟩

instance : IsTrans MsgRec byCreated := ⟨fun _ _ _ h1 h2 => le_trans h1 h2⟩

/-- The WHERE clause of the `GET /messages` SELECT: group match when a
group was requested, `deleted = false` unless `include_deleted=true`, and
the retention time window. -/
def whereClause (now retentionDays : Int) (group : Option String)
    (includeDeleted : Bool) (m : MsgRec) : Bool :=
  (match group with
   | some g => decide (m.group = some g)
   | none => true) &&
  (includeDeleted || !m.deleted) &&
  decide (now - retentionDays * dayMs ≤ m.created_at)

/-- server.js lines 134-163, `GET /messages`.  The limit is
`Math.min(5000, Math.max(50, Number(req.query.limit || 1000)))`; the
SELECT keeps the rows passing the WHERE clause, ordered by
`created_at ASC` (modelled by a stable sort) and capped by `LIMIT`. -/
def getMessages (now retentionDays : Int) (group : Option String)
    (includeDeleted : Bool) (limitParam : Option Nat) (db : List MsgRec) :
    List MsgRec :=
  let limit := min 5000 (max 50 (limitParam.getD 1000))
  let rows := db.filter (whereClause now retentionDays group includeDeleted)
  (List.insertionSort byCreated rows).take limit

/-- The updated image of a matched row is in the updated table. -/
theorem mem_map_update (db : List MsgRec) (id : String)
    (f : MsgRec → MsgRec) (m0 : MsgRec) (hm : m0 ∈ db)
    (hid : m0.id = id) :
    f m0 ∈ db.map (fun m => if m.id = id then f m else m) := by
  have h := List.mem_map_of_mem (fun m => if m.id = id then f m else m) hm
  simpa [hid] using h

/-- An UPDATE whose WHERE clause matches no row leaves the table as it
was. -/
theorem map_update_no_match (db : List MsgRec) (id : String)
    (f : MsgRec → MsgRec) (h : ∀ m ∈ db, m.id ≠ id) :
    db.map (fun m => if m.id = id then f m else m) = db := by
  induction db with
  | nil => rfl
  | cons a t ih =>
      simp only [List.map_cons, if_neg (h a (List.mem_cons_self a t)),
        List.cons.injEq, true_and]
      exact ih (fun m hm => h m (List.mem_cons_of_mem a hm))

/-! ## Claim C2: durable write before broadcast -/

/-- C2: for each of the three publish-trigger handlers, a rejected
durable write (INSERT for create, UPDATE for edit/delete) yields a 500
response with the whole state — rows, SSE registry and publish history —
untouched, so `broadcast` was never invoked; and on the successful paths
the broadcast event of the handler is appended to the publish history of
a state whose table already durably contains the written row (the
sequential definition performs the store write strictly before
`doBroadcast`). -/
theorem claim_c2_persist_before_publish (aF : Bool) (now : Int)
    (newId auditId : String) (text : String)
    (sender phone group reply ip ua : Option String)
    (id newText editor actor : String) (st : ChatState)
    (htext : jsTrim text ≠ "") (hnew : jsTrim newText ≠ "") :
    postSend true aF now newId auditId text sender phone group reply ip ua
        st = (.serverError, st) ∧
    putMessage true aF auditId id newText editor st = (.serverError, st) ∧
    deleteMessage true aF auditId now id actor st = (.serverError, st) ∧
    ((postSend false aF now newId auditId text sender phone group reply ip
        ua st).2.history = st.history ++
          [Event.message
            (mkMessageRow now newId (jsTrim text) sender phone group reply
              ip ua)] ∧
      mkMessageRow now newId (jsTrim text) sender phone group reply ip ua ∈
        (postSend false aF now newId auditId text sender phone group reply
          ip ua st).2.db) ∧
    ((putMessage false aF auditId id newText editor st).2.history =
        st.history ∨
      ∃ u, (putMessage false aF auditId id newText editor st).2.history =
          st.history ++ [Event.edit u] ∧
        u ∈ (putMessage false aF auditId id newText editor st).2.db) ∧
    ((deleteMessage false aF auditId now id actor st).2.history =
        st.history ∨
      ((deleteMessage false aF auditId now id actor st).2.history =
          st.history ++ [Event.delete id] ∧
        ∃ m ∈ (deleteMessage false aF auditId now id actor st).2.db,
          m.id = id ∧ m.deleted = true)) := by
  refine ⟨by simp [postSend, htext], by simp [putMessage, hnew],
    by simp [deleteMessage], ⟨?_, ?_⟩, ?_, ?_⟩
  · cases aF <;> simp [postSend, htext, doBroadcast]
  · cases aF <;> simp [postSend, htext, doBroadcast]
  · cases hF : st.db.filter (fun m => decide (m.id = id)) with
    | nil => exact Or.inl (by simp [putMessage, hnew, hF])
    | cons m0 tl =>
        have hm0 : m0 ∈ st.db ∧ m0.id = id := by
          have hmf : m0 ∈ st.db.filter (fun m => decide (m.id = id)) := by
            rw [hF]; exact List.mem_cons_self m0 tl
          have h2 := List.mem_filter.1 hmf
          exact ⟨h2.1, by simpa using h2.2⟩
        refine Or.inr ⟨{ m0 with text := jsTrim newText, edited := true },
          by cases aF <;> simp [putMessage, hnew, hF, doBroadcast], ?_⟩
        have hmem := mem_map_update st.db id
          (fun m => { m with text := jsTrim newText, edited := true })
          m0 hm0.1 hm0.2
        cases aF <;> simpa [putMessage, hnew, hF, doBroadcast] using hmem
  · cases hF : st.db.filter (fun m => decide (m.id = id)) with
    | nil => exact Or.inl (by simp [deleteMessage, hF])
    | cons m0 tl =>
        have hm0 : m0 ∈ st.db ∧ m0.id = id := by
          have hmf : m0 ∈ st.db.filter (fun m => decide (m.id = id)) := by
            rw [hF]; exact List.mem_cons_self m0 tl
          have h2 := List.mem_filter.1 hmf
          exact ⟨h2.1, by simpa using h2.2⟩
        have hmem := mem_map_update st.db id
          (fun m => { m with deleted := true, deleted_at := some now, deleted_by := some actor })
          m0 hm0.1 hm0.2
        refine Or.inr ⟨by cases aF <;> simp [deleteMessage, hF, doBroadcast],
          ⟨{ m0 with deleted := true, deleted_at := some now, deleted_by := some actor },
            ?_, by simp [hm0.2], by simp⟩⟩
        cases aF <;> simpa [deleteMessage, hF, doBroadcast] using hmem

/-- Witness for C2 on a concrete one-row state and non-empty texts. -/
theorem claim_c2_persist_before_publish_witness :
    (jsTrim "hi" ≠ "") ∧ (jsTrim "hey" ≠ "") ∧
    (postSend true false 3 "m2" "a1" "hi" none none none none none none
        ⟨[], [], [], []⟩ = (.serverError, ⟨[], [], [], []⟩)) := by
  refine ⟨by decide, by decide, ?_⟩
  exact (claim_c2_persist_before_publish false 3 "m2" "a1" "hi" none none
    none none none none "x" "hey" "ed" "ac" ⟨[], [], [], []⟩ (by decide)
    (by decide)).1

/-! ## Claim C3: operations on an already-deleted record -/

/-- A row that has already been soft-deleted. -/
def recDeleted : MsgRec :=
  ⟨"m1", "hi", "s", none, none, none, false, 0, none, none, true, some 0,
    some "s"⟩

/-- A server state whose only row is already soft-deleted, with an empty
publish history. -/
def stDeleted : ChatState := ⟨[recDeleted], [], [], []⟩

/-- C3 counterexample to the claim as stated: the UPDATE of both the edit
and the delete handler matches rows by id alone, with no `deleted = false`
condition, so on a record with `deleted = true` the claim's required
outcome (404, record unchanged, no broadcast) fails: the delete responds
200, rewrites `deleted_at`/`deleted_by`, and broadcasts a second delete
event, and the edit responds 200 as well. -/
theorem claim_c3_counterexample :
    ¬((deleteMessage false false "a1" 5 "m1" "actor" stDeleted).1 =
          Resp.notFound ∧
      (deleteMessage false false "a1" 5 "m1" "actor" stDeleted).2 =
        stDeleted) ∧
    (deleteMessage false false "a1" 5 "m1" "actor" stDeleted).1 =
      Resp.ok "m1" ∧
    (deleteMessage false false "a1" 5 "m1" "actor" stDeleted).2.history =
      [Event.delete "m1"] ∧
    (deleteMessage false false "a1" 5 "m1" "actor" stDeleted).2.db =
      [⟨"m1", "hi", "s", none, none, none, false, 0, none, none, true,
        some 5, some "actor"⟩] ∧
    (putMessage false false "a2" "m1" "hey" "ed" stDeleted).1 =
      Resp.ok "m1" := by
  decide

/-- C3 (amended): edit and delete of an id with no row at all are
rejected as not-found with the state — rows, registry, publish history —
unchanged and no broadcast; but when a row with the id exists, the
handlers succeed regardless of its `deleted` flag (the UPDATEs check only
the id), mutate the row and broadcast, so deleting an already-deleted id
produces a second delete event rather than a 404. -/
theorem claim_c3_soft_delete (aF : Bool) (auditId : String) (now : Int)
    (id newText editor actor : String) (st : ChatState)
    (hnew : jsTrim newText ≠ "") :
    ((∀ m ∈ st.db, m.id ≠ id) →
      putMessage false aF auditId id newText editor st = (.notFound, st) ∧
      deleteMessage false aF auditId now id actor st = (.notFound, st)) ∧
    (∀ m0 ∈ st.db, m0.id = id →
      (putMessage false aF auditId id newText editor st).1 = .ok id ∧
      (∃ u, (putMessage false aF auditId id newText editor st).2.history =
          st.history ++ [Event.edit u]) ∧
      (deleteMessage false aF auditId now id actor st).1 = .ok id ∧
      (deleteMessage false aF auditId now id actor st).2.history =
        st.history ++ [Event.delete id]) := by
  constructor
  · intro habs
    have hfil : st.db.filter (fun m => decide (m.id = id)) = [] := by
      rw [List.filter_eq_nil_iff]
      intro m hm
      simpa using habs m hm
    constructor
    · simp [putMessage, hnew, hfil, map_update_no_match st.db id _ habs]
    · simp [deleteMessage, hfil, map_update_no_match st.db id _ habs]
  · intro m0 hm0 hid
    have hne : st.db.filter (fun m => decide (m.id = id)) ≠ [] := by
      intro hnil
      have : m0 ∈ st.db.filter (fun m => decide (m.id = id)) :=
        List.mem_filter.2 ⟨hm0, by simpa using hid⟩
      rw [hnil] at this
      cases this
    cases hF : st.db.filter (fun m => decide (m.id = id)) with
    | nil => exact absurd hF hne
    | cons m1 tl =>
        refine ⟨by simp [putMessage, hnew, hF],
          ⟨{ m1 with text := jsTrim newText, edited := true },
            by cases aF <;> simp [putMessage, hnew, hF, doBroadcast]⟩,
          by simp [deleteMessage, hF],
          by cases aF <;> simp [deleteMessage, hF, doBroadcast]⟩

/-- Witness for C3 (amended) on a concrete state: an unknown id is
rejected, and the present id succeeds. -/
theorem claim_c3_soft_delete_witness :
    (jsTrim "hey" ≠ "") ∧
    ((∀ m ∈ stDeleted.db, m.id ≠ "nope") →
      putMessage false false "a2" "nope" "hey" "ed" stDeleted =
          (.notFound, stDeleted) ∧
      deleteMessage false false "a2" 5 "nope" "ac" stDeleted =
        (.notFound, stDeleted)) ∧
    (∀ m0 ∈ stDeleted.db, m0.id = "nope" →
      (putMessage false false "a2" "nope" "hey" "ed" stDeleted).1 =
          .ok "nope" ∧
      (∃ u, (putMessage false false "a2" "nope" "hey" "ed"
          stDeleted).2.history = stDeleted.history ++ [Event.edit u]) ∧
      (deleteMessage false false "a2" 5 "nope" "ac" stDeleted).1 =
          .ok "nope" ∧
      (deleteMessage false false "a2" 5 "nope" "ac" stDeleted).2.history =
        stDeleted.history ++ [Event.delete "nope"]) :=
  ⟨by decide,
    (claim_c3_soft_delete false "a2" 5 "nope" "hey" "ed" "ac" stDeleted
      (by decide)).1,
    (claim_c3_soft_delete false "a2" 5 "nope" "hey" "ed" "ac" stDeleted
      (by decide)).2⟩

/-! ## Claim C10: audit-log failure never affects the operation -/

/-- C10: for each handler, running with the audit INSERT failing versus
succeeding produces the same response, the same `messages` rows, the same
SSE registry and the same publish history (only the `audit_logs` table
differs); and whenever the message write itself succeeded, the response
is still 200 with the audit insert failing. -/
theorem claim_c10_audit_isolated (now : Int) (newId auditId : String)
    (text : String) (sender phone group reply ip ua : Option String)
    (id newText editor actor : String) (st : ChatState)
    (htext : jsTrim text ≠ "") (hnew : jsTrim newText ≠ "")
    (m0 : MsgRec) (hm0 : m0 ∈ st.db) (hid : m0.id = id) :
    ((postSend false true now newId auditId text sender phone group reply
          ip ua st).1 =
        (postSend false false now newId auditId text sender phone group
          reply ip ua st).1 ∧
      (postSend false true now newId auditId text sender phone group reply
          ip ua st).2.db =
        (postSend false false now newId auditId text sender phone group
          reply ip ua st).2.db ∧
      (postSend false true now newId auditId text sender phone group reply
          ip ua st).2.clients =
        (postSend false false now newId auditId text sender phone group
          reply ip ua st).2.clients ∧
      (postSend false true now newId auditId text sender phone group reply
          ip ua st).2.history =
        (postSend false false now newId auditId text sender phone group
          reply ip ua st).2.history) ∧
    ((putMessage false true auditId id newText editor st).1 =
        (putMessage false false auditId id newText editor st).1 ∧
      (putMessage false true auditId id newText editor st).2.db =
        (putMessage false false auditId id newText editor st).2.db ∧
      (putMessage false true auditId id newText editor st).2.clients =
        (putMessage false false auditId id newText editor st).2.clients ∧
      (putMessage false true auditId id newText editor st).2.history =
        (putMessage false false auditId id newText editor st).2.history) ∧
    ((deleteMessage false true auditId now id actor st).1 =
        (deleteMessage false false auditId now id actor st).1 ∧
      (deleteMessage false true auditId now id actor st).2.db =
        (deleteMessage false false auditId now id actor st).2.db ∧
      (deleteMessage false true auditId now id actor st).2.clients =
        (deleteMessage false false auditId now id actor st).2.clients ∧
      (deleteMessage false true auditId now id actor st).2.history =
        (deleteMessage false false auditId now id actor st).2.history) ∧
    (postSend false true now newId auditId text sender phone group reply
        ip ua st).1 = .ok newId ∧
    (putMessage false true auditId id newText editor st).1 = .ok id ∧
    (deleteMessage false true auditId now id actor st).1 = .ok id := by
  have hne : st.db.filter (fun m => decide (m.id = id)) ≠ [] := by
    intro hnil
    have : m0 ∈ st.db.filter (fun m => decide (m.id = id)) :=
      List.mem_filter.2 ⟨hm0, by simpa using hid⟩
    rw [hnil] at this
    cases this
  cases hF : st.db.filter (fun m => decide (m.id = id)) with
  | nil => exact absurd hF hne
  | cons m1 tl =>
      refine ⟨⟨?_, ?_, ?_, ?_⟩, ⟨?_, ?_, ?_, ?_⟩, ⟨?_, ?_, ?_, ?_⟩,
        ?_, ?_, ?_⟩ <;>
        simp [postSend, putMessage, deleteMessage, htext, hnew, hF,
          doBroadcast]

/-- Witness for C10 on a concrete one-row state. -/
theorem claim_c10_audit_isolated_witness :
    (jsTrim "hi" ≠ "") ∧ (jsTrim "hey" ≠ "") ∧
    (recDeleted ∈ stDeleted.db) ∧ (recDeleted.id = "m1") ∧
    ((postSend false true 3 "m2" "a1" "hi" none none none none none none
        stDeleted).1 = .ok "m2" ∧
      (putMessage false true "a1" "m1" "hey" "ed" stDeleted).1 =
        .ok "m1" ∧
      (deleteMessage false true "a1" 3 "m1" "ac" stDeleted).1 =
        .ok "m1") :=
  ⟨by decide, by decide, by decide, by decide,
    (claim_c10_audit_isolated 3 "m2" "a1" "hi" none none none none none
        none "m1" "hey" "ed" "ac" stDeleted (by decide) (by decide)
        recDeleted (by decide) (by decide)).2.2.2⟩

/-! ## Claim C5: retention sweep -/

/-- C5: both retention sweeps only ever remove rows past their applicable
age threshold.  The server.js sweep removes a row only when it is
soft-deleted and its `created_at` is older than the retention cutoff, so
it never touches a `deleted = false` row at all and never touches a
soft-deleted row younger than its purge cutoff; the part_000 sweep
removes a row only when it is an active row older than the retention
cutoff or a soft-deleted row whose `deleted_at` is older than the 60-day
purge cutoff, so active rows inside the window and freshly soft-deleted
rows are always kept. -/
theorem claim_c5_retention_sweep (now retentionDays : Int)
    (db : List MsgRec) (m : MsgRec) (hm : m ∈ db) :
    (m ∉ cleanupOldMessages now retentionDays db →
      m.deleted = true ∧ m.created_at < now - retentionDays * dayMs) ∧
    (m.deleted = false → m ∈ cleanupOldMessages now retentionDays db) ∧
    (m.deleted = true → now - retentionDays * dayMs ≤ m.created_at →
      m ∈ cleanupOldMessages now retentionDays db) ∧
    (m ∉ cleanupOldMessagesTok now retentionDays db →
      (m.deleted = false ∧ m.created_at < now - retentionDays * dayMs) ∨
      (m.deleted = true ∧
        ∃ d, m.deleted_at = some d ∧ d < now - 60 * dayMs)) ∧
    (m.deleted = false → now - retentionDays * dayMs ≤ m.created_at →
      m ∈ cleanupOldMessagesTok now retentionDays db) ∧
    (m.deleted = true →
      (∀ d, m.deleted_at = some d → now - 60 * dayMs ≤ d) →
      m ∈ cleanupOldMessagesTok now retentionDays db) := by
  refine ⟨fun hout => ?_, fun hdel => ?_, fun hdel hage => ?_,
    fun hout => ?_, fun hdel hage => ?_, fun hdel hage => ?_⟩
  · by_contra hcon
    refine hout (List.mem_filter.2 ⟨hm, ?_⟩)
    simp only [Bool.not_eq_true', Bool.and_eq_false_iff,
      decide_eq_false_iff_not]
    by_cases h1 : m.deleted = true
    · exact Or.inr (fun hlt => hcon ⟨h1, hlt⟩)
    · exact Or.inl (by simpa using h1)
  · refine List.mem_filter.2 ⟨hm, ?_⟩
    simp [hdel]
  · refine List.mem_filter.2 ⟨hm, ?_⟩
    simp [hdel, not_lt.2 hage]
  · by_contra hcon
    push_neg at hcon
    refine hout (List.mem_filter.2 ⟨List.mem_filter.2 ⟨hm, ?_⟩, ?_⟩)
    · simp only [Bool.not_eq_true', Bool.and_eq_false_iff,
        Bool.not_eq_false', decide_eq_false_iff_not]
      by_cases h1 : m.deleted = true
      · exact Or.inl h1
      · exact Or.inr (fun hlt =>
          absurd hlt (not_lt.2 (hcon.1 (by simpa using h1))))
    · simp only [Bool.not_eq_true', Bool.and_eq_false_iff]
      by_cases h1 : m.deleted = true
      · refine Or.inr ?_
        cases hd : m.deleted_at with
        | none => rfl
        | some d =>
            simp only [decide_eq_false_iff_not, not_lt]
            exact hcon.2 h1 d hd
      · exact Or.inl (by simpa using h1)
  · refine List.mem_filter.2 ⟨List.mem_filter.2 ⟨hm, ?_⟩, ?_⟩
    · simp [hdel, not_lt.2 hage]
    · simp [hdel]
  · refine List.mem_filter.2 ⟨List.mem_filter.2 ⟨hm, ?_⟩, ?_⟩
    · simp [hdel]
    · simp only [hdel, Bool.true_and, Bool.not_eq_true']
      cases hd : m.deleted_at with
      | none => rfl
      | some d =>
          simp only [decide_eq_false_iff_not, not_lt]
          exact hage d hd

/-! ## Claim C6: backfill query -/

/-- Every row returned by `GET /messages` passed the WHERE clause. -/
theorem mem_getMessages (now retentionDays : Int) (group : Option String)
    (includeDeleted : Bool) (limitParam : Option Nat) (db : List MsgRec)
    (m : MsgRec)
    (hm : m ∈ getMessages now retentionDays group includeDeleted limitParam
      db) :
    whereClause now retentionDays group includeDeleted m = true := by
  unfold getMessages at hm
  have h1 := List.take_subset _ _ hm
  have h2 := (List.perm_insertionSort byCreated _).mem_iff.1 h1
  exact (List.mem_filter.1 h2).2

/-- C6: the backfill result has at most L rows, where L is the request
limit clamped into [50, 5000] and defaulting to 1000 when absent; it is
ordered by creation time; every returned row is inside the retention
window; rows with `deleted = true` are excluded unless
`include_deleted=true` was requested; and a group filter restricts the
rows to that group. -/
theorem claim_c6_backfill (now retentionDays : Int) (group : Option String)
    (includeDeleted : Bool) (limitParam : Option Nat) (db : List MsgRec) :
    (getMessages now retentionDays group includeDeleted limitParam
        db).length ≤ min 5000 (max 50 (limitParam.getD 1000)) ∧
    50 ≤ min 5000 (max 50 (limitParam.getD 1000)) ∧
    min 5000 (max 50 (limitParam.getD 1000)) ≤ 5000 ∧
    (limitParam = none →
      min 5000 (max 50 (limitParam.getD 1000)) = 1000) ∧
    List.Sorted byCreated
      (getMessages now retentionDays group includeDeleted limitParam db) ∧
    (∀ m ∈ getMessages now retentionDays group includeDeleted limitParam
        db, now - retentionDays * dayMs ≤ m.created_at) ∧
    (includeDeleted = false →
      ∀ m ∈ getMessages now retentionDays group includeDeleted limitParam
        db, m.deleted = false) ∧
    (∀ g, group = some g →
      ∀ m ∈ getMessages now retentionDays group includeDeleted limitParam
        db, m.group = some g) := by
  refine ⟨?_, by omega, by omega, fun h => by simp [h], ?_, ?_, ?_, ?_⟩
  · exact List.length_take_le _ _
  · exact List.Pairwise.sublist (List.take_sublist _ _)
      (List.sorted_insertionSort byCreated _)
  · intro m hm
    have h := mem_getMessages now retentionDays group includeDeleted
      limitParam db m hm
    simp only [whereClause, Bool.and_eq_true, decide_eq_true_eq] at h
    exact h.2
  · intro hinc m hm
    have h := mem_getMessages now retentionDays group includeDeleted
      limitParam db m hm
    simp only [whereClause, hinc, Bool.and_eq_true, Bool.false_or,
      Bool.not_eq_true', decide_eq_true_eq] at h
    exact h.1.2
  · intro g hg m hm
    have h := mem_getMessages now retentionDays group includeDeleted
      limitParam db m hm
    rw [hg] at h
    simp only [whereClause, Bool.and_eq_true, decide_eq_true_eq] at h
    exact h.1.1

/-- Witness for C6 on a concrete table containing one fresh active row,
one deleted row and one expired row, with no explicit limit. -/
theorem claim_c6_backfill_witness :
    ((getMessages 10 0 none false none
        [⟨"m1", "a", "s", none, none, none, false, 10, none, none, false,
          none, none⟩,
         ⟨"m2", "b", "s", none, none, none, false, 10, none, none, true,
          some 10, none⟩,
         ⟨"m3", "c", "s", none, none, none, false, (-5), none, none, false,
          none, none⟩]).length ≤ min 5000 (max 50 ((none : Option Nat).getD 1000)) ∧
      50 ≤ min 5000 (max 50 ((none : Option Nat).getD 1000)) ∧
      min 5000 (max 50 ((none : Option Nat).getD 1000)) ≤ 5000 ∧
      ((none : Option Nat) = none →
        min 5000 (max 50 ((none : Option Nat).getD 1000)) = 1000) ∧
      List.Sorted byCreated
        (getMessages 10 0 none false none
          [⟨"m1", "a", "s", none, none, none, false, 10, none, none, false,
            none, none⟩,
           ⟨"m2", "b", "s", none, none, none, false, 10, none, none, true,
            some 10, none⟩,
           ⟨"m3", "c", "s", none, none, none, false, (-5), none, none,
            false, none, none⟩]) ∧
      (∀ m ∈ getMessages 10 0 none false none
          [⟨"m1", "a", "s", none, none, none, false, 10, none, none, false,
            none, none⟩,
           ⟨"m2", "b", "s", none, none, none, false, 10, none, none, true,
            some 10, none⟩,
           ⟨"m3", "c", "s", none, none, none, false, (-5), none, none,
            false, none, none⟩], 10 - 0 * dayMs ≤ m.created_at) ∧
      ((false : Bool) = false →
        ∀ m ∈ getMessages 10 0 none false none
          [⟨"m1", "a", "s", none, none, none, false, 10, none, none, false,
            none, none⟩,
           ⟨"m2", "b", "s", none, none, none, false, 10, none, none, true,
            some 10, none⟩,
           ⟨"m3", "c", "s", none, none, none, false, (-5), none, none,
            false, none, none⟩], m.deleted = false) ∧
      (∀ g, (none : Option String) = some g →
        ∀ m ∈ getMessages 10 0 none false none
          [⟨"m1", "a", "s", none, none, none, false, 10, none, none, false,
            none, none⟩,
           ⟨"m2", "b", "s", none, none, none, false, 10, none, none, true,
            some 10, none⟩,
           ⟨"m3", "c", "s", none, none, none, false, (-5), none, none,
            false, none, none⟩], m.group = some g)) :=
  claim_c6_backfill 10 0 none false none _

/-- Witness for C5: a freshly soft-deleted row and an active row inside
the window both survive both sweeps on a concrete table. -/
theorem claim_c5_retention_sweep_witness :
    (recDeleted ∈ [recDeleted]) ∧
    ((recDeleted ∉ cleanupOldMessages 10 5 [recDeleted] →
        recDeleted.deleted = true ∧
        recDeleted.created_at < 10 - 5 * dayMs) ∧
      (recDeleted.deleted = false →
        recDeleted ∈ cleanupOldMessages 10 5 [recDeleted]) ∧
      (recDeleted.deleted = true → 10 - 5 * dayMs ≤ recDeleted.created_at →
        recDeleted ∈ cleanupOldMessages 10 5 [recDeleted]) ∧
      (recDeleted ∉ cleanupOldMessagesTok 10 5 [recDeleted] →
        (recDeleted.deleted = false ∧
          recDeleted.created_at < 10 - 5 * dayMs) ∨
        (recDeleted.deleted = true ∧
          ∃ d, recDeleted.deleted_at = some d ∧ d < 10 - 60 * dayMs)) ∧
      (recDeleted.deleted = false → 10 - 5 * dayMs ≤ recDeleted.created_at →
        recDeleted ∈ cleanupOldMessagesTok 10 5 [recDeleted]) ∧
      (recDeleted.deleted = true →
        (∀ d, recDeleted.deleted_at = some d → 10 - 60 * dayMs ≤ d) →
        recDeleted ∈ cleanupOldMessagesTok 10 5 [recDeleted])) :=
  ⟨by decide, claim_c5_retention_sweep 10 5 [recDeleted] recDeleted
    (by decide)⟩

/-! ## Auth token verification (src/unnamed/part_000 lines 126-165) -/

/-- JavaScript `token.split('.')` on the character list: splitting an
empty string yields `[""]`, separators at the ends yield empty parts. -/
def splitDot : List Char → List (List Char)
  | [] => [[]]
  | c :: rest =>
      if c = '.' then [] :: splitDot rest
      else
        match splitDot rest with
        | [] => [[c]]
        | p :: ps => (c :: p) :: ps

/-- Byte length of `Buffer.from(s)` (UTF-8 encoding) for a string given
as its character list. -/
def utf8Len (l : List Char) : Nat := (l.map Char.utf8Size).sum

/-- Value of an unsigned decimal digit string, `none` when the string is
empty or contains a non-digit. -/
def digitsVal (l : List Char) : Option Nat :=
  if l = [] then none
  else if l.all (fun c => decide (48 ≤ c.toNat) && decide (c.toNat ≤ 57))
  then some (l.foldl (fun acc c => acc * 10 + (c.toNat - 48)) 0)
  else none

/-- Model of JavaScript `Number(s)` on the integer-literal fragment
exercised by `verifyAuthToken`: the empty string is 0, an optionally
negated digit string is its value, anything else is NaN (`none`).  NaN
propagates so that every comparison against it is false. -/
def jsNumber (l : List Char) : Option Int :=
  if l = [] then some 0
  else
    match l with
    | '-' :: rest => (digitsVal rest).map (fun n => -(n : Int))
    | _ => (digitsVal l).map (fun n => (n : Int))

/-- The body of `verifyAuthToken` after the destructuring
`const [phone, timestamp, signature] = parts` (part_000 lines 148-164).
`crypto.timingSafeEqual(Buffer.from(sig), Buffer.from(expected))` THROWS
a RangeError when the two byte lengths differ — there is no try/catch in
the function, so the exception propagates to the caller, modelled as
`.error`; with equal lengths it is plain byte equality.  The external
`crypto.createHmac('sha256', DUMMY_SECRET_KEY)...digest('hex')` call is
abstracted as the `hmac` parameter (fed `phone:timestamp`).  The expiry
check `Date.now() - Number(timestamp) > thirtyDaysMs` is false when
`Number(timestamp)` is NaN, so such a token is accepted. -/
def verifyAuthTokenParts (hmac : String → String) (now : Int)
    (phone timestamp signature : String) : Except String (Option String) :=
  if utf8Len signature.data ≠
      utf8Len (hmac (phone ++ ":" ++ timestamp)).data then
    .error "RangeError: input buffers must have the same byte length"
  else if signature ≠ hmac (phone ++ ":" ++ timestamp) then .ok none
  else
    match jsNumber timestamp.data with
    | none => .ok (some phone)
    | some t =>
        if now - t > 30 * 24 * 60 * 60 * 1000 then .ok none
        else .ok (some phone)

/-- part_000 lines 144-165, `verifyAuthToken(token)`: a falsy (empty)
token and a token without exactly three dot-separated parts give null;
otherwise the parts are checked by `verifyAuthTokenParts`. -/
def verifyAuthToken (hmac : String → String) (now : Int) (token : String) :
    Except String (Option String) :=
  if token = "" then .ok none
  else
    match (splitDot token.data).map String.mk with
    | [phone, timestamp, signature] =>
        verifyAuthTokenParts hmac now phone timestamp signature
    | _ => .ok none

/-- A stand-in for the external HMAC-SHA256 hex digest, used only to
evaluate the model on concrete inputs: like the real digest it is a
64-character hex string for every input. -/
def hmacStub : String → String := fun _ => String.mk (List.replicate 64 'a')

/-! ## Claim C9: verifyAuthToken totality -/

/-- C9 counterexample to the claim as stated: on the three-part token
`"p.1.xy"` whose signature component is 2 bytes long instead of the
64 bytes of a hex HMAC-SHA256 digest, `crypto.timingSafeEqual` raises a
RangeError which `verifyAuthToken` does not catch, so the function
throws rather than returning the phone or null. -/
theorem claim_c9_counterexample :
    verifyAuthToken hmacStub 0 "p.1.xy" =
      .error "RangeError: input buffers must have the same byte length" ∧
    utf8Len ("xy").data = 2 ∧ utf8Len (hmacStub "p:1").data = 64 :=
  ⟨rfl, by decide, by decide⟩

/-- C9 (amended): `verifyAuthToken` terminates on every input and
returns the embedded phone or null — except that it throws (the
uncaught `timingSafeEqual` RangeError) precisely when the token is
non-empty, splits into exactly three dot-separated parts, and the
signature part's byte length differs from that of the expected digest.
Whenever a phone is returned it is the token's first part and the
signature equals the expected digest. -/
theorem claim_c9_verify_totality (hmac : String → String) (now : Int)
    (token : String) :
    ((∃ e, verifyAuthToken hmac now token = .error e) ↔
      (token ≠ "" ∧
        ∃ p t s, (splitDot token.data).map String.mk = [p, t, s] ∧
          utf8Len s.data ≠ utf8Len (hmac (p ++ ":" ++ t)).data)) ∧
    (∀ p, verifyAuthToken hmac now token = .ok (some p) →
      token ≠ "" ∧
      ∃ t s, (splitDot token.data).map String.mk = [p, t, s] ∧
        s = hmac (p ++ ":" ++ t)) := by
  constructor
  · constructor
    · rintro ⟨e, he⟩
      unfold verifyAuthToken at he
      by_cases h0 : token = ""
      · rw [if_pos h0] at he
        cases he
      · rw [if_neg h0] at he
        refine ⟨h0, ?_⟩
        generalize h3 : (splitDot token.data).map String.mk = l at he
        rcases l with _ | ⟨p, _ | ⟨t, _ | ⟨s, _ | ⟨x, xs⟩⟩⟩⟩
        · cases he
        · cases he
        · cases he
        · replace he : verifyAuthTokenParts hmac now p t s =
              Except.error e := he
          refine ⟨p, t, s, rfl, ?_⟩
          unfold verifyAuthTokenParts at he
          by_contra hlen
          rw [if_neg (fun hne2 => hne2 hlen)] at he
          split at he
          · cases he
          · split at he
            · cases he
            · split at he <;> cases he
        · cases he
    · rintro ⟨h0, p, t, s, hsp, hlen⟩
      refine ⟨"RangeError: input buffers must have the same byte length",
        ?_⟩
      unfold verifyAuthToken
      rw [if_neg h0, hsp]
      show verifyAuthTokenParts hmac now p t s = _
      unfold verifyAuthTokenParts
      rw [if_pos hlen]
  · intro p hok
    unfold verifyAuthToken at hok
    by_cases h0 : token = ""
    · rw [if_pos h0] at hok
      cases hok
    · rw [if_neg h0] at hok
      refine ⟨h0, ?_⟩
      generalize h3 : (splitDot token.data).map String.mk = l at hok
      rcases l with _ | ⟨p1, _ | ⟨t, _ | ⟨s, _ | ⟨x, xs⟩⟩⟩⟩
      · cases hok
      · cases hok
      · cases hok
      · replace hok : verifyAuthTokenParts hmac now p1 t s =
            Except.ok (some p) := hok
        unfold verifyAuthTokenParts at hok
        split at hok
        · cases hok
        · split at hok
          · cases hok
          · rename_i hne hsig
            have hs : s = hmac (p1 ++ ":" ++ t) := not_not.1 hsig
            split at hok
            · injection hok with h1
              injection h1 with h2
              subst h2
              exact ⟨t, s, rfl, hs⟩
            · split at hok
              · cases hok
              · injection hok with h1
                injection h1 with h2
                subst h2
                exact ⟨t, s, rfl, hs⟩
      · cases hok

/-- Witness for C9 (amended) at a concrete well-formed token accepted by
the stub digest. -/
theorem claim_c9_verify_totality_witness :
    ((∃ e, verifyAuthToken hmacStub 50 "p.1.xy" = .error e) ↔
      ("p.1.xy" ≠ "" ∧
        ∃ p t s, (splitDot ("p.1.xy").data).map String.mk = [p, t, s] ∧
          utf8Len s.data ≠ utf8Len (hmacStub (p ++ ":" ++ t)).data)) ∧
    (∀ p, verifyAuthToken hmacStub 50 "p.1.xy" = .ok (some p) →
      "p.1.xy" ≠ "" ∧
      ∃ t s, (splitDot ("p.1.xy").data).map String.mk = [p, t, s] ∧
        s = hmacStub (p ++ ":" ++ t)) :=
  claim_c9_verify_totality hmacStub 50 "p.1.xy"

end Takgol
